import Mathlib

/-!
Verification development for `scripts/analyze_logs.py` (Flutter log analyzer).

The Python program is embedded shallowly: a log line is a `List Char`, the
`LogAnalyzer` object is a structure holding the six attributes set by
`__init__`, and each `_check_*` method becomes a pure function on that
structure.  `re.search(pat, line, re.IGNORECASE)` is modelled by
`reSearchIC`: each of the program's regexes is an alternation of "chains"
of literal words separated by `.*`, and such a regex matches a line exactly
when some chain's words occur in order (case-insensitively) in the line.
-/

namespace AnalyzeLogs

/-- A Python string, as a list of characters. -/
abbrev Str := List Char

/-- Shorthand: characters of a string literal. -/
def w (s : String) : Str := s.toList

/-- Lower-casing, modelling the effect of `re.IGNORECASE` on the
ASCII-only patterns of this program. -/
def lc (s : Str) : Str := s.map Char.toLower

/-- `containsSub s pat`: `pat` occurs as a contiguous substring of `s`
(Python `pat in s`). -/
def containsSub (s pat : Str) : Bool :=
  match s with
  | [] => pat.isPrefixOf ([] : Str)
  | _ :: t => pat.isPrefixOf s || containsSub t pat

/-- The suffix of `s` that follows the first occurrence of `pat`, if any. -/
def afterFirst (pat : Str) : Str → Option Str
  | [] => if pat.isPrefixOf ([] : Str) then some [] else none
  | c :: t =>
    if pat.isPrefixOf (c :: t) then some ((c :: t).drop pat.length)
    else afterFirst pat t

/-- `chainSearch [w1, ..., wk] s` holds when `w1`, ..., `wk` occur in `s`
in this order (the semantics of searching for `w1.*w2.*...*wk`). -/
def chainSearch : List Str → Str → Bool
  | [], _ => true
  | p :: ps, s =>
    match afterFirst p s with
    | some rest => chainSearch ps rest
    | none => false

/-- A regex of this program, normalised: a disjunction of chains of
literal words (alternations are distributed over the `.*` gaps). -/
abbrev Regex := List (List Str)

/-- A regex whose disjuncts are given as lists of string literals. -/
def rx (chains : List (List String)) : Regex :=
  chains.map (·.map String.toList)

/-- `re.search(r, line, re.IGNORECASE) is not None` for a normalised
regex `r`. -/
def reSearchIC (r : Regex) (line : Str) : Bool :=
  r.any fun ch => chainSearch (ch.map lc) (lc line)

/-- Python `str.strip()` (the program's inputs are ASCII, so core
whitespace is an adequate model of Python's whitespace set). -/
def pyStrip (s : Str) : Str :=
  ((s.dropWhile Char.isWhitespace).reverse.dropWhile Char.isWhitespace).reverse

/-- One matched (category, line) pair, i.e. one of the dicts
`{'type': ..., 'line': ...}` the script appends. -/
structure Finding where
  type : Str
  line : Str
deriving DecidableEq, Repr

/-- The `LogAnalyzer` object: exactly the six attributes assigned in
`__init__` (`analyze_logs.py` lines 15-21). `patterns` is the
`defaultdict(int)` kept as an insertion-ordered association list. -/
structure LogAnalyzer where
  errors : List Finding
  warnings : List Finding
  stack_traces : List Str
  patterns : List (Str × Nat)
  security_issues : List Finding
  performance_issues : List Finding
deriving DecidableEq, Repr

/-- The state right after `LogAnalyzer.__init__`. -/
def initState : LogAnalyzer := ⟨[], [], [], [], [], []⟩

/-- `self.patterns[name] += 1` on a `defaultdict(int)`: increment an
existing key in place, else append it with count 1. -/
def bump : List (Str × Nat) → Str → List (Str × Nat)
  | [], k => [(k, 1)]
  | (k0, n) :: rest, k =>
    if k0 = k then (k0, n + 1) :: rest else (k0, n) :: bump rest k

/-- Fold `bump` over a list of keys. -/
def bumpList (m : List (Str × Nat)) (ks : List Str) : List (Str × Nat) :=
  ks.foldl bump m

/-- The count stored for key `k` (0 when absent, as for `defaultdict(int)`). -/
def lookupCount : List (Str × Nat) → Str → Nat
  | [], _ => 0
  | (k0, n) :: rest, k => if k0 = k then n else lookupCount rest k

/-- Sum of all counts in the map. -/
def sumCounts (m : List (Str × Nat)) : Nat := (m.map Prod.snd).sum

/-! ### Pattern catalogs (`analyze_logs.py` lines 59-145)

Each Lean value is the normalisation of the Python regex given in its
comment: alternations are expanded and `.*` gaps become chain steps. -/

/-- `error_patterns` of `_check_error_patterns` (lines 59-70). -/
def error_patterns : List (Regex × Str) :=
  [ (rx [["NullPointerException"], ["null pointer"]], w "Null Pointer Exception"),
    (rx [["NoSuchMethodError"]], w "No Such Method Error"),
    (rx [["ClassCastException"]], w "Type Cast Error"),
    (rx [["OutOfMemoryError"]], w "Out of Memory"),
    (rx [["StackOverflowError"]], w "Stack Overflow"),
    (rx [["IOException"], ["File not found"]], w "File I/O Error"),
    (rx [["NetworkError"], ["Connection refused"]], w "Network Error"),
    (rx [["TimeoutException"]], w "Timeout Error"),
    (rx [["FormatException"], ["JSON parsing"]], w "Format/JSON Parse Error"),
    (rx [["StateError"], ["Invalid state"]], w "State Error") ]

/-- `null_patterns` of `_check_null_safety_issues` (lines 82-88). -/
def null_patterns : List Regex :=
  [ rx [["null safety"]],
    rx [["nullable type"]],
    rx [["null propagation"]],
    rx [["Unhandled Exception", "null"]],
    rx [["accessing", "null"]] ]

/-- `async_patterns` of `_check_async_errors` (lines 100-107).
The first entry is `(uncaught|unhandled).*(future|async|await)`. -/
def async_patterns : List Regex :=
  [ rx [["uncaught", "future"], ["uncaught", "async"], ["uncaught", "await"],
        ["unhandled", "future"], ["unhandled", "async"], ["unhandled", "await"]],
    rx [["future", "failed"]],
    rx [["bad state"], ["invalid async"]],
    rx [["stream", "closed"]],
    rx [["subscript", "cancelled"]],
    rx [["MissingPluginException"]] ]

/-- `security_patterns` of `_check_security_issues` (lines 119-126). -/
def security_patterns : List (Regex × Str) :=
  [ (rx [["password", "stored"], ["password", "saved"], ["password", "hardcoded"],
         ["secret", "stored"], ["secret", "saved"], ["secret", "hardcoded"],
         ["token", "stored"], ["token", "saved"], ["token", "hardcoded"],
         ["api", "key", "stored"], ["api", "key", "saved"], ["api", "key", "hardcoded"]],
     w "Credential Storage"),
    (rx [["ssl", "verification", "disabled"], ["ssl", "verification", "false"],
         ["certificate", "verification", "disabled"], ["certificate", "verification", "false"],
         ["tls", "verification", "disabled"], ["tls", "verification", "false"]],
     w "SSL Verification Disabled"),
    (rx [["sql", "injection"], ["command", "injection"]], w "Injection Vulnerability"),
    (rx [["xss"], ["cross", "site", "scripting"]], w "XSS Vulnerability"),
    (rx [["debug", "enabled", "production"], ["debug", "true", "production"]],
     w "Debug Enabled in Production"),
    (rx [["log", "password"], ["password", "log"]], w "Password in Logs") ]

/-- `perf_patterns` of `_check_performance_issues` (lines 138-145). -/
def perf_patterns : List (Regex × Str) :=
  [ (rx [["ANR", "application not responding"]], w "ANR (App Not Responding)"),
    (rx [["jank"], ["frame", "drop"], ["dropped", "frame"]], w "Dropped Frames"),
    (rx [["memory", "pressure"], ["low", "memory"]], w "Memory Pressure"),
    (rx [["OutOfMemory"], ["heap", "size"]], w "Memory Issues"),
    (rx [["garbage", "collect"], ["GC"]], w "Garbage Collection"),
    (rx [["disk", "full"], ["storage", "full"]], w "Disk Full") ]

/-- Category label of the null-safety pass. -/
def nsiKey : Str := w "Null Safety Issue"

/-- Finding type appended by the async pass (to `self.errors`!). -/
def afeType : Str := w "Async/Future Error"

/-- Counter key bumped by the async pass. -/
def aeKey : Str := w "Async Error"

/-- Prefix of security counter keys (`f'Security: {issue_type}'`). -/
def secPre : Str := w "Security: "

/-- Prefix of performance counter keys (`f'Performance: {issue_type}'`). -/
def perfPre : Str := w "Performance: "

/-! ### The five per-line passes (`analyze_logs.py` lines 57-153) -/

/-- Loop body of `_check_error_patterns`: for each (pattern, name) pair,
on a match append `{'type': name, 'line': line.strip()}` to `errors`
and bump `patterns[name]`. -/
def checkErrorAux (line : Str) : List (Regex × Str) → LogAnalyzer → LogAnalyzer
  | [], st => st
  | (p, name) :: rest, st =>
    checkErrorAux line rest
      (if reSearchIC p line then
        { st with errors := st.errors ++ [⟨name, pyStrip line⟩],
                  patterns := bump st.patterns name }
       else st)

/-- `_check_error_patterns` (lines 57-78). -/
def checkErrorPatterns (st : LogAnalyzer) (line : Str) : LogAnalyzer :=
  checkErrorAux line error_patterns st

/-- Loop body of `_check_null_safety_issues`: every matching pattern
appends a `'Null Safety Issue'` warning and bumps that key. -/
def checkNullAux (line : Str) : List Regex → LogAnalyzer → LogAnalyzer
  | [], st => st
  | p :: rest, st =>
    checkNullAux line rest
      (if reSearchIC p line then
        { st with warnings := st.warnings ++ [⟨nsiKey, pyStrip line⟩],
                  patterns := bump st.patterns nsiKey }
       else st)

/-- `_check_null_safety_issues` (lines 80-96). -/
def checkNullSafetyIssues (st : LogAnalyzer) (line : Str) : LogAnalyzer :=
  checkNullAux line null_patterns st

/-- Loop body of `_check_async_errors`: note that it appends to
`self.errors` (line 111), with type `'Async/Future Error'`, while
bumping the key `'Async Error'` (line 115). -/
def checkAsyncAux (line : Str) : List Regex → LogAnalyzer → LogAnalyzer
  | [], st => st
  | p :: rest, st =>
    checkAsyncAux line rest
      (if reSearchIC p line then
        { st with errors := st.errors ++ [⟨afeType, pyStrip line⟩],
                  patterns := bump st.patterns aeKey }
       else st)

/-- `_check_async_errors` (lines 98-115). -/
def checkAsyncErrors (st : LogAnalyzer) (line : Str) : LogAnalyzer :=
  checkAsyncAux line async_patterns st

/-- Loop body of `_check_security_issues`. -/
def checkSecAux (line : Str) : List (Regex × Str) → LogAnalyzer → LogAnalyzer
  | [], st => st
  | (p, t) :: rest, st =>
    checkSecAux line rest
      (if reSearchIC p line then
        { st with security_issues := st.security_issues ++ [⟨t, pyStrip line⟩],
                  patterns := bump st.patterns (secPre ++ t) }
       else st)

/-- `_check_security_issues` (lines 117-134). -/
def checkSecurityIssues (st : LogAnalyzer) (line : Str) : LogAnalyzer :=
  checkSecAux line security_patterns st

/-- Loop body of `_check_performance_issues`. -/
def checkPerfAux (line : Str) : List (Regex × Str) → LogAnalyzer → LogAnalyzer
  | [], st => st
  | (p, t) :: rest, st =>
    checkPerfAux line rest
      (if reSearchIC p line then
        { st with performance_issues := st.performance_issues ++ [⟨t, pyStrip line⟩],
                  patterns := bump st.patterns (perfPre ++ t) }
       else st)

/-- `_check_performance_issues` (lines 136-153). -/
def checkPerformanceIssues (st : LogAnalyzer) (line : Str) : LogAnalyzer :=
  checkPerfAux line perf_patterns st

/-! ### Stack-trace extraction (`analyze_logs.py` lines 155-167) -/

/-- Line 157: `'at ' in line or 'File' in line and 'Line' in line`
(Python `and` binds tighter than `or`; plain case-sensitive substring). -/
def isTraceStart (l : Str) : Bool :=
  containsSub l (w "at ") || (containsSub l (w "File") && containsSub l (w "Line"))

/-- Lines 161-163: a following line is consumed while it starts with
`'at '`, or starts with two spaces, or contains `'File'`. -/
def isTraceCont (l : Str) : Bool :=
  (w "at ").isPrefixOf l || (w "  ").isPrefixOf l || containsSub l (w "File")

/-- `'\n'.join(trace)`. -/
def joinNL (ls : List Str) : Str := (ls.intersperse (w "\n")).flatten

/-- `_check_stack_traces`: from a start line, greedily consume following
lines while they qualify; record the joined block only when it has more
than one line. -/
def checkStackTraces (st : LogAnalyzer) (line : Str) (index : Nat)
    (all : List Str) : LogAnalyzer :=
  if isTraceStart line then
    let trace := line :: (all.drop (index + 1)).takeWhile isTraceCont
    if trace.length > 1 then
      { st with stack_traces := st.stack_traces ++ [joinNL trace] }
    else st
  else st

/-! ### Per-line processing and the whole-file run -/

/-- The five pattern-matching passes of `_process_line`, as first-class
values so that their execution order can be permuted. -/
inductive Pass where
  | perr | pnull | pasync | psec | pperf
deriving DecidableEq, Repr

/-- Dispatch a pass to its check function. -/
def applyPass : Pass → LogAnalyzer → Str → LogAnalyzer
  | .perr, st, line => checkErrorPatterns st line
  | .pnull, st, line => checkNullSafetyIssues st line
  | .pasync, st, line => checkAsyncErrors st line
  | .psec, st, line => checkSecurityIssues st line
  | .pperf, st, line => checkPerformanceIssues st line

/-- The order the source runs the passes in (`_process_line`, lines 50-54). -/
def canonicalPasses : List Pass := [.perr, .pnull, .pasync, .psec, .pperf]

/-- Run a list of passes over one line. -/
def runPasses (ps : List Pass) (st : LogAnalyzer) (line : Str) : LogAnalyzer :=
  ps.foldl (fun s p => applyPass p s line) st

/-- `_process_line` with an explicit pass order: skip blank lines, run
the passes, then stack-trace detection. -/
def processLineWith (ps : List Pass) (st : LogAnalyzer) (line : Str)
    (index : Nat) (all : List Str) : LogAnalyzer :=
  if pyStrip line = [] then st
  else checkStackTraces (runPasses ps st line) line index all

/-- `_process_line` (lines 44-55), in the source's pass order. -/
def processLine (st : LogAnalyzer) (line : Str) (index : Nat)
    (all : List Str) : LogAnalyzer :=
  processLineWith canonicalPasses st line index all

/-- The `for i, line in enumerate(lines)` loop of `analyze_file`. -/
def runFrom (ps : List Pass) (all : List Str) :
    List Str → Nat → LogAnalyzer → LogAnalyzer
  | [], _, st => st
  | l :: rest, i, st => runFrom ps all rest (i + 1) (processLineWith ps st l i all)

/-- Whole-input analysis with an explicit pass order, from a fresh state. -/
def analyzeWith (ps : List Pass) (lines : List Str) : LogAnalyzer :=
  runFrom ps lines lines 0 initState

/-- Whole-input analysis as the source performs it. -/
def analyzeLines (lines : List Str) : LogAnalyzer :=
  analyzeWith canonicalPasses lines

/-- Analysis from an arbitrary starting object (used to express that a
freshly constructed analyzer carries no state between invocations). -/
def analyzeFrom (st : LogAnalyzer) (lines : List Str) : LogAnalyzer :=
  runFrom canonicalPasses lines lines 0 st

end AnalyzeLogs

namespace AnalyzeLogs

/-! ### Normal forms of the five passes

Each pass appends, to one output list, findings computed from the line
alone, and bumps one counter key per matched pattern.  The `*Findings`
and `*Keys` functions name those per-line deltas. -/

/-- Findings the error pass appends to `errors` for a line. -/
def errFindings (line : Str) : List Finding :=
  (error_patterns.filter fun e => reSearchIC e.1 line).map fun e => ⟨e.2, pyStrip line⟩

/-- Counter keys the error pass bumps for a line. -/
def errKeys (line : Str) : List Str :=
  (error_patterns.filter fun e => reSearchIC e.1 line).map fun e => e.2

/-- Findings the null-safety pass appends to `warnings` for a line. -/
def nullFindings (line : Str) : List Finding :=
  (null_patterns.filter fun p => reSearchIC p line).map fun _ => ⟨nsiKey, pyStrip line⟩

/-- Counter keys the null-safety pass bumps for a line. -/
def nullKeys (line : Str) : List Str :=
  (null_patterns.filter fun p => reSearchIC p line).map fun _ => nsiKey

/-- Findings the async pass appends to `errors` for a line. -/
def asyncFindings (line : Str) : List Finding :=
  (async_patterns.filter fun p => reSearchIC p line).map fun _ => ⟨afeType, pyStrip line⟩

/-- Counter keys the async pass bumps for a line. -/
def asyncKeys (line : Str) : List Str :=
  (async_patterns.filter fun p => reSearchIC p line).map fun _ => aeKey

/-- Findings the security pass appends to `security_issues` for a line. -/
def secFindings (line : Str) : List Finding :=
  (security_patterns.filter fun e => reSearchIC e.1 line).map fun e => ⟨e.2, pyStrip line⟩

/-- Counter keys the security pass bumps for a line. -/
def secKeys (line : Str) : List Str :=
  (security_patterns.filter fun e => reSearchIC e.1 line).map fun e => secPre ++ e.2

/-- Findings the performance pass appends to `performance_issues`. -/
def perfFindings (line : Str) : List Finding :=
  (perf_patterns.filter fun e => reSearchIC e.1 line).map fun e => ⟨e.2, pyStrip line⟩

/-- Counter keys the performance pass bumps for a line. -/
def perfKeys (line : Str) : List Str :=
  (perf_patterns.filter fun e => reSearchIC e.1 line).map fun e => perfPre ++ e.2

theorem bumpList_nil (m : List (Str × Nat)) : bumpList m [] = m := rfl

theorem bumpList_cons (m : List (Str × Nat)) (k : Str) (ks : List Str) :
    bumpList m (k :: ks) = bumpList (bump m k) ks := rfl

theorem bumpList_append (m : List (Str × Nat)) (a b : List Str) :
    bumpList m (a ++ b) = bumpList (bumpList m a) b := by
  simp [bumpList, List.foldl_append]

theorem checkErrorAux_shape (line : Str) (cat : List (Regex × Str)) (st : LogAnalyzer) :
    checkErrorAux line cat st =
      { st with
        errors := st.errors ++
          ((cat.filter fun e => reSearchIC e.1 line).map fun e => ⟨e.2, pyStrip line⟩),
        patterns := bumpList st.patterns
          ((cat.filter fun e => reSearchIC e.1 line).map fun e => e.2) } := by
  induction cat generalizing st with
  | nil => simp [checkErrorAux, bumpList_nil]
  | cons e rest ih =>
    obtain ⟨p, name⟩ := e
    by_cases h : reSearchIC p line
    · simp [checkErrorAux, h, ih, List.filter_cons, bumpList_cons, List.append_assoc]
    · simp [checkErrorAux, h, ih, List.filter_cons]

theorem checkNullAux_shape (line : Str) (cat : List Regex) (st : LogAnalyzer) :
    checkNullAux line cat st =
      { st with
        warnings := st.warnings ++
          ((cat.filter fun p => reSearchIC p line).map fun _ => ⟨nsiKey, pyStrip line⟩),
        patterns := bumpList st.patterns
          ((cat.filter fun p => reSearchIC p line).map fun _ => nsiKey) } := by
  induction cat generalizing st with
  | nil => simp [checkNullAux, bumpList_nil]
  | cons p rest ih =>
    by_cases h : reSearchIC p line
    · simp [checkNullAux, h, ih, List.filter_cons, bumpList_cons, List.append_assoc]
    · simp [checkNullAux, h, ih, List.filter_cons]

theorem checkAsyncAux_shape (line : Str) (cat : List Regex) (st : LogAnalyzer) :
    checkAsyncAux line cat st =
      { st with
        errors := st.errors ++
          ((cat.filter fun p => reSearchIC p line).map fun _ => ⟨afeType, pyStrip line⟩),
        patterns := bumpList st.patterns
          ((cat.filter fun p => reSearchIC p line).map fun _ => aeKey) } := by
  induction cat generalizing st with
  | nil => simp [checkAsyncAux, bumpList_nil]
  | cons p rest ih =>
    by_cases h : reSearchIC p line
    · simp [checkAsyncAux, h, ih, List.filter_cons, bumpList_cons, List.append_assoc]
    · simp [checkAsyncAux, h, ih, List.filter_cons]

theorem checkSecAux_shape (line : Str) (cat : List (Regex × Str)) (st : LogAnalyzer) :
    checkSecAux line cat st =
      { st with
        security_issues := st.security_issues ++
          ((cat.filter fun e => reSearchIC e.1 line).map fun e => ⟨e.2, pyStrip line⟩),
        patterns := bumpList st.patterns
          ((cat.filter fun e => reSearchIC e.1 line).map fun e => secPre ++ e.2) } := by
  induction cat generalizing st with
  | nil => simp [checkSecAux, bumpList_nil]
  | cons e rest ih =>
    obtain ⟨p, t⟩ := e
    by_cases h : reSearchIC p line
    · simp [checkSecAux, h, ih, List.filter_cons, bumpList_cons, List.append_assoc]
    · simp [checkSecAux, h, ih, List.filter_cons]

theorem checkPerfAux_shape (line : Str) (cat : List (Regex × Str)) (st : LogAnalyzer) :
    checkPerfAux line cat st =
      { st with
        performance_issues := st.performance_issues ++
          ((cat.filter fun e => reSearchIC e.1 line).map fun e => ⟨e.2, pyStrip line⟩),
        patterns := bumpList st.patterns
          ((cat.filter fun e => reSearchIC e.1 line).map fun e => perfPre ++ e.2) } := by
  induction cat generalizing st with
  | nil => simp [checkPerfAux, bumpList_nil]
  | cons e rest ih =>
    obtain ⟨p, t⟩ := e
    by_cases h : reSearchIC p line
    · simp [checkPerfAux, h, ih, List.filter_cons, bumpList_cons, List.append_assoc]
    · simp [checkPerfAux, h, ih, List.filter_cons]

end AnalyzeLogs

namespace AnalyzeLogs

/-- Delta a pass appends to `errors` (the error AND async passes both
write there, `analyze_logs.py` lines 74 and 111). -/
def passErr : Pass → Str → List Finding
  | .perr, line => errFindings line
  | .pasync, line => asyncFindings line
  | _, _ => []

/-- Delta a pass appends to `warnings` (only the null-safety pass). -/
def passWarn : Pass → Str → List Finding
  | .pnull, line => nullFindings line
  | _, _ => []

/-- Delta a pass appends to `security_issues` (only the security pass). -/
def passSec : Pass → Str → List Finding
  | .psec, line => secFindings line
  | _, _ => []

/-- Delta a pass appends to `performance_issues` (only the performance pass). -/
def passPerf : Pass → Str → List Finding
  | .pperf, line => perfFindings line
  | _, _ => []

/-- Counter keys a pass bumps. -/
def passKeys : Pass → Str → List Str
  | .perr, line => errKeys line
  | .pnull, line => nullKeys line
  | .pasync, line => asyncKeys line
  | .psec, line => secKeys line
  | .pperf, line => perfKeys line

theorem applyPass_shape (p : Pass) (st : LogAnalyzer) (line : Str) :
    applyPass p st line =
      { st with
        errors := st.errors ++ passErr p line,
        warnings := st.warnings ++ passWarn p line,
        security_issues := st.security_issues ++ passSec p line,
        performance_issues := st.performance_issues ++ passPerf p line,
        patterns := bumpList st.patterns (passKeys p line) } := by
  cases p <;>
    simp [applyPass, passErr, passWarn, passSec, passPerf, passKeys,
      checkErrorPatterns, checkNullSafetyIssues, checkAsyncErrors,
      checkSecurityIssues, checkPerformanceIssues,
      checkErrorAux_shape, checkNullAux_shape, checkAsyncAux_shape,
      checkSecAux_shape, checkPerfAux_shape,
      errFindings, errKeys, nullFindings, nullKeys, asyncFindings, asyncKeys,
      secFindings, secKeys, perfFindings, perfKeys]

/-- Concatenation of per-pass deltas over a pass list. -/
def joinMap {α : Type} (g : Pass → Str → List α) (ps : List Pass) (line : Str) :
    List α :=
  (ps.map fun p => g p line).flatten

theorem joinMap_nil {α : Type} (g : Pass → Str → List α) (line : Str) :
    joinMap g [] line = [] := rfl

theorem joinMap_cons {α : Type} (g : Pass → Str → List α) (p : Pass)
    (ps : List Pass) (line : Str) :
    joinMap g (p :: ps) line = g p line ++ joinMap g ps line := by
  simp [joinMap]

theorem runPasses_shape (ps : List Pass) (st : LogAnalyzer) (line : Str) :
    runPasses ps st line =
      { st with
        errors := st.errors ++ joinMap passErr ps line,
        warnings := st.warnings ++ joinMap passWarn ps line,
        security_issues := st.security_issues ++ joinMap passSec ps line,
        performance_issues := st.performance_issues ++ joinMap passPerf ps line,
        patterns := bumpList st.patterns (joinMap passKeys ps line) } := by
  induction ps generalizing st with
  | nil => simp [runPasses, joinMap_nil, bumpList_nil]
  | cons p ps ih =>
    have hstep : runPasses (p :: ps) st line =
        runPasses ps (applyPass p st line) line := rfl
    rw [hstep, ih, applyPass_shape]
    simp [joinMap_cons, List.append_assoc, bumpList_append]

/-- The joined stack-trace blocks `_check_stack_traces` appends for one
line (empty unless the line starts a block of more than one line). -/
def traceDelta (line : Str) (index : Nat) (all : List Str) : List Str :=
  if isTraceStart line then
    if 0 < ((all.drop (index + 1)).takeWhile isTraceCont).length then
      [joinNL (line :: (all.drop (index + 1)).takeWhile isTraceCont)]
    else []
  else []

theorem checkStackTraces_shape (st : LogAnalyzer) (line : Str) (index : Nat)
    (all : List Str) :
    checkStackTraces st line index all =
      { st with stack_traces := st.stack_traces ++ traceDelta line index all } := by
  by_cases hs : isTraceStart line
  · by_cases hl : 0 < ((all.drop (index + 1)).takeWhile isTraceCont).length
    · have : (line :: (all.drop (index + 1)).takeWhile isTraceCont).length > 1 := by
        simp only [List.length_cons]; omega
      simp [checkStackTraces, traceDelta, hs, hl, this]
    · have : ¬ (line :: (all.drop (index + 1)).takeWhile isTraceCont).length > 1 := by
        simp only [List.length_cons]; omega
      simp [checkStackTraces, traceDelta, hs, hl, this]
  · simp [checkStackTraces, traceDelta, hs]

/-- Normal form of `_process_line` on a non-blank line: each output list
grows by a delta computed from the line alone. -/
theorem processLineWith_shape (ps : List Pass) (st : LogAnalyzer) (line : Str)
    (index : Nat) (all : List Str) (h : pyStrip line ≠ []) :
    processLineWith ps st line index all =
      { st with
        errors := st.errors ++ joinMap passErr ps line,
        warnings := st.warnings ++ joinMap passWarn ps line,
        security_issues := st.security_issues ++ joinMap passSec ps line,
        performance_issues := st.performance_issues ++ joinMap passPerf ps line,
        patterns := bumpList st.patterns (joinMap passKeys ps line),
        stack_traces := st.stack_traces ++ traceDelta line index all } := by
  rw [processLineWith, if_neg h, checkStackTraces_shape, runPasses_shape]

end AnalyzeLogs

namespace AnalyzeLogs

/-- Number of occurrences of `k` in a key list. -/
def occ (k : Str) (ks : List Str) : Nat := (ks.filter fun x => x = k).length

theorem occ_append (k : Str) (a b : List Str) :
    occ k (a ++ b) = occ k a + occ k b := by
  simp [occ, List.filter_append]

theorem occ_eq_zero (k : Str) (ks : List Str) (h : ∀ x ∈ ks, x ≠ k) :
    occ k ks = 0 := by
  simp only [occ, List.length_eq_zero, List.filter_eq_nil_iff]
  intro a ha
  simpa using h a ha

theorem occ_perm (k : Str) {ks ks' : List Str} (h : List.Perm ks ks') :
    occ k ks = occ k ks' := by
  simp only [occ]
  exact (h.filter fun x => decide (x = k)).length_eq

theorem lookupCount_bump (m : List (Str × Nat)) (k0 k : Str) :
    lookupCount (bump m k0) k = lookupCount m k + (if k0 = k then 1 else 0) := by
  induction m with
  | nil => by_cases h : k0 = k <;> simp [bump, lookupCount, h]
  | cons e rest ih =>
    obtain ⟨k1, n⟩ := e
    by_cases h1 : k1 = k0
    · subst h1
      by_cases h2 : k1 = k <;> simp [bump, lookupCount, h2]
    · by_cases h2 : k1 = k
      · subst h2
        have : ¬ k0 = k1 := fun hk => h1 hk.symm
        simp [bump, lookupCount, h1, this]
      · simp [bump, lookupCount, h1, h2, ih]

theorem lookupCount_bumpList (m : List (Str × Nat)) (ks : List Str) (k : Str) :
    lookupCount (bumpList m ks) k = lookupCount m k + occ k ks := by
  induction ks generalizing m with
  | nil => simp [bumpList_nil, occ]
  | cons k0 ks ih =>
    rw [bumpList_cons, ih, lookupCount_bump]
    have : occ k (k0 :: ks) = (if k0 = k then 1 else 0) + occ k ks := by
      by_cases h : k0 = k
      · simp [occ, List.filter_cons, h]
        omega
      · simp [occ, List.filter_cons, h]
    omega

theorem sumCounts_bump (m : List (Str × Nat)) (k : Str) :
    sumCounts (bump m k) = sumCounts m + 1 := by
  induction m with
  | nil => simp [bump, sumCounts]
  | cons e rest ih =>
    obtain ⟨k1, n⟩ := e
    by_cases h : k1 = k <;> simp [bump, sumCounts, h] <;>
      simp [sumCounts] at ih <;> omega

theorem sumCounts_bumpList (m : List (Str × Nat)) (ks : List Str) :
    sumCounts (bumpList m ks) = sumCounts m + ks.length := by
  induction ks generalizing m with
  | nil => simp [bumpList_nil]
  | cons k0 ks ih =>
    rw [bumpList_cons, ih, sumCounts_bump]
    simp [List.length_cons]
    omega

theorem joinMap_perm {α : Type} (g : Pass → Str → List α) (line : Str)
    {ps qs : List Pass} (h : List.Perm ps qs) :
    List.Perm (joinMap g ps line) (joinMap g qs line) := by
  induction h with
  | nil => exact List.Perm.refl _
  | cons p _ ih => simpa [joinMap_cons] using ih.append_left (g p line)
  | swap x y l =>
    simpa [joinMap_cons] using
      List.perm_append_comm_assoc (g y line) (g x line) (joinMap g l line)
  | trans _ _ ih1 ih2 => exact ih1.trans ih2

theorem joinMap_eq_nil {α : Type} (g : Pass → Str → List α) (line : Str)
    (ps : List Pass) (h : ∀ p ∈ ps, g p line = []) : joinMap g ps line = [] := by
  induction ps with
  | nil => rfl
  | cons p ps ih =>
    rw [joinMap_cons, h p (by simp), ih fun q hq => h q (by simp [hq])]
    rfl

/-- When only the pass `p0` produces output through `g`, any pass list
containing `p0` exactly once yields exactly `p0`'s delta. -/
theorem joinMap_eq_of_single {α : Type} (g : Pass → Str → List α) (p0 : Pass)
    (line : Str) (hz : ∀ p : Pass, p ≠ p0 → g p line = []) :
    ∀ ps : List Pass, ps.count p0 = 1 → joinMap g ps line = g p0 line := by
  intro ps
  induction ps with
  | nil => simp
  | cons p ps ih =>
    intro hc
    by_cases hp : p = p0
    · subst hp
      have hc0 : ps.count p = 0 := by
        have := List.count_cons_self p ps
        omega
      have : ∀ q ∈ ps, g q line = [] := by
        intro q hq
        apply hz
        intro hq0
        subst hq0
        exact absurd (List.count_eq_zero.mp hc0) (fun h => h hq)
      rw [joinMap_cons, joinMap_eq_nil g line ps this, List.append_nil]
    · have hc' : ps.count p0 = 1 := by
        have := List.count_cons_of_ne (fun h => hp h.symm) ps
        omega
      rw [joinMap_cons, hz p hp, ih hc']
      rfl

/-- Reports agree up to the order of the `errors` list and the insertion
order of counter keys. -/
def ReportEquiv (s t : LogAnalyzer) : Prop :=
  List.Perm s.errors t.errors ∧ s.warnings = t.warnings ∧
  s.security_issues = t.security_issues ∧
  s.performance_issues = t.performance_issues ∧
  s.stack_traces = t.stack_traces ∧
  ∀ k : Str, lookupCount s.patterns k = lookupCount t.patterns k

theorem ReportEquiv.refl (s : LogAnalyzer) : ReportEquiv s s :=
  ⟨List.Perm.refl _, rfl, rfl, rfl, rfl, fun _ => rfl⟩

theorem count_pnull_canonical : canonicalPasses.count Pass.pnull = 1 := by decide

theorem count_psec_canonical : canonicalPasses.count Pass.psec = 1 := by decide

theorem count_pperf_canonical : canonicalPasses.count Pass.pperf = 1 := by decide

theorem processLineWith_equiv {ps : List Pass}
    (hps : List.Perm ps canonicalPasses) {s t : LogAnalyzer}
    (he : ReportEquiv s t) (line : Str) (index : Nat) (all : List Str) :
    ReportEquiv (processLineWith ps s line index all)
      (processLineWith canonicalPasses t line index all) := by
  by_cases hb : pyStrip line = []
  · simpa [processLineWith, hb] using he
  · obtain ⟨h1, h2, h3, h4, h5, h6⟩ := he
    rw [processLineWith_shape ps s line index all hb,
        processLineWith_shape canonicalPasses t line index all hb]
    have hwarn : joinMap passWarn ps line = joinMap passWarn canonicalPasses line := by
      rw [joinMap_eq_of_single passWarn .pnull line
            (by intro p hp; cases p <;> simp_all [passWarn]) ps
            (by rw [hps.count_eq]; exact count_pnull_canonical),
          joinMap_eq_of_single passWarn .pnull line
            (by intro p hp; cases p <;> simp_all [passWarn]) canonicalPasses
            count_pnull_canonical]
    have hsec : joinMap passSec ps line = joinMap passSec canonicalPasses line := by
      rw [joinMap_eq_of_single passSec .psec line
            (by intro p hp; cases p <;> simp_all [passSec]) ps
            (by rw [hps.count_eq]; exact count_psec_canonical),
          joinMap_eq_of_single passSec .psec line
            (by intro p hp; cases p <;> simp_all [passSec]) canonicalPasses
            count_psec_canonical]
    have hperf : joinMap passPerf ps line = joinMap passPerf canonicalPasses line := by
      rw [joinMap_eq_of_single passPerf .pperf line
            (by intro p hp; cases p <;> simp_all [passPerf]) ps
            (by rw [hps.count_eq]; exact count_pperf_canonical),
          joinMap_eq_of_single passPerf .pperf line
            (by intro p hp; cases p <;> simp_all [passPerf]) canonicalPasses
            count_pperf_canonical]
    refine ⟨h1.append (joinMap_perm passErr line hps), ?_, ?_, ?_, ?_, ?_⟩
    · simp [h2, hwarn]
    · simp [h3, hsec]
    · simp [h4, hperf]
    · simp [h5]
    · intro k
      rw [lookupCount_bumpList, lookupCount_bumpList, h6 k,
          occ_perm k (joinMap_perm passKeys line hps)]

theorem runFrom_equiv {ps : List Pass} (hps : List.Perm ps canonicalPasses)
    (all : List Str) :
    ∀ (rest : List Str) (i : Nat) {s t : LogAnalyzer}, ReportEquiv s t →
      ReportEquiv (runFrom ps all rest i s)
        (runFrom canonicalPasses all rest i t) := by
  intro rest
  induction rest with
  | nil => intro i s t he; exact he
  | cons l rest ih =>
    intro i s t he
    exact ih (i + 1) (processLineWith_equiv hps he l i all)

end AnalyzeLogs

namespace AnalyzeLogs

/-- The pass order with the error and async passes exchanged. -/
def swappedPasses : List Pass := [.pasync, .perr, .pnull, .psec, .pperf]

/-- A line matching one error pattern (`TimeoutException`) and one async
pattern (`(uncaught|unhandled).*(future|async|await)`); both passes
append to the `errors` list. -/
def exC2 : Str := w "uncaught async TimeoutException"

/-- Claim C2, counterexample: the five passes do NOT write to pairwise
disjoint collections — the async pass appends to `errors` just like the
error pass (`analyze_logs.py` line 111) — so permuting the passes can
change the resulting `errors` list. -/
theorem c2_counterexample :
    List.Perm swappedPasses canonicalPasses ∧
    (analyzeWith swappedPasses [exC2]).errors ≠ (analyzeLines [exC2]).errors := by
  constructor
  · decide
  · decide

/-- Claim C2 (amended): permuting the five passes leaves the warnings,
security and performance lists and the stack traces unchanged, leaves
the `errors` list unchanged as a multiset (its order can change, because
the error and async passes share it), and changes the counts map at most
in key insertion order. -/
theorem c2_pass_order_independence (ps : List Pass)
    (hps : List.Perm ps canonicalPasses) (lines : List Str) :
    (analyzeWith ps lines).warnings = (analyzeLines lines).warnings ∧
    (analyzeWith ps lines).security_issues = (analyzeLines lines).security_issues ∧
    (analyzeWith ps lines).performance_issues =
      (analyzeLines lines).performance_issues ∧
    (analyzeWith ps lines).stack_traces = (analyzeLines lines).stack_traces ∧
    List.Perm (analyzeWith ps lines).errors (analyzeLines lines).errors ∧
    ∀ k : Str, lookupCount (analyzeWith ps lines).patterns k =
      lookupCount (analyzeLines lines).patterns k := by
  have h := runFrom_equiv hps lines lines 0 (ReportEquiv.refl initState)
  obtain ⟨h1, h2, h3, h4, h5, h6⟩ := h
  exact ⟨h2, h3, h4, h5, h1, h6⟩

/-- Witness for `c2_pass_order_independence` at a concrete permutation
and input. -/
theorem c2_pass_order_independence_witness :
    List.Perm swappedPasses canonicalPasses ∧
    ((analyzeWith swappedPasses [exC2]).warnings = (analyzeLines [exC2]).warnings ∧
     (analyzeWith swappedPasses [exC2]).security_issues =
       (analyzeLines [exC2]).security_issues ∧
     (analyzeWith swappedPasses [exC2]).performance_issues =
       (analyzeLines [exC2]).performance_issues ∧
     (analyzeWith swappedPasses [exC2]).stack_traces =
       (analyzeLines [exC2]).stack_traces ∧
     List.Perm (analyzeWith swappedPasses [exC2]).errors
       (analyzeLines [exC2]).errors ∧
     ∀ k : Str, lookupCount (analyzeWith swappedPasses [exC2]).patterns k =
       lookupCount (analyzeLines [exC2]).patterns k) :=
  ⟨by decide, c2_pass_order_independence swappedPasses (by decide) [exC2]⟩

/-- `LogAnalyzer.__init__` applied to an arbitrary pre-existing object:
every one of the six attributes is overwritten with a fresh empty value,
so nothing of the previous state survives. -/
def constructAnalyzer (prev : LogAnalyzer) : LogAnalyzer :=
  { prev with
    errors := []
    warnings := []
    stack_traces := []
    patterns := []
    security_issues := []
    performance_issues := [] }

/-- Claim C8: two independent invocations, each on a freshly constructed
analyzer (regardless of any stale analyzer state lying around), produce
identical reports, equal to `analyzeLines` — analysis reads no state
beyond the fresh object and the input lines. -/
theorem c8_independent_runs_identical (stale1 stale2 : LogAnalyzer)
    (lines : List Str) :
    analyzeFrom (constructAnalyzer stale1) lines =
      analyzeFrom (constructAnalyzer stale2) lines ∧
    analyzeFrom (constructAnalyzer stale1) lines = analyzeLines lines :=
  ⟨rfl, rfl⟩

/-- Combined length of the four finding lists. -/
def totalFindings (st : LogAnalyzer) : Nat :=
  st.errors.length + st.warnings.length + st.security_issues.length +
    st.performance_issues.length

theorem joinMap_keys_length (line : Str) :
    (joinMap passKeys canonicalPasses line).length =
      (joinMap passErr canonicalPasses line).length +
      (joinMap passWarn canonicalPasses line).length +
      (joinMap passSec canonicalPasses line).length +
      (joinMap passPerf canonicalPasses line).length := by
  simp [canonicalPasses, joinMap, passKeys, passErr, passWarn, passSec, passPerf,
    errKeys, errFindings, nullKeys, nullFindings, asyncKeys, asyncFindings,
    secKeys, secFindings, perfKeys, perfFindings]
  omega

theorem processLine_sum_invariant (st : LogAnalyzer) (l : Str) (i : Nat)
    (all : List Str) (h : sumCounts st.patterns = totalFindings st) :
    sumCounts (processLineWith canonicalPasses st l i all).patterns =
      totalFindings (processLineWith canonicalPasses st l i all) := by
  by_cases hb : pyStrip l = []
  · simpa [processLineWith, hb] using h
  · rw [processLineWith_shape _ _ _ _ _ hb]
    have hk := joinMap_keys_length l
    simp only [totalFindings, List.length_append, sumCounts_bumpList] at *
    omega

theorem runFrom_sum_invariant (all : List Str) :
    ∀ (rest : List Str) (i : Nat) (st : LogAnalyzer),
      sumCounts st.patterns = totalFindings st →
      sumCounts (runFrom canonicalPasses all rest i st).patterns =
        totalFindings (runFrom canonicalPasses all rest i st) := by
  intro rest
  induction rest with
  | nil => intro i st h; exact h
  | cons l rest ih =>
    intro i st h
    exact ih (i + 1) _ (processLine_sum_invariant st l i all h)

/-- Claim C9: after any run, the sum of all counter values equals the
total number of findings across the four lists — every append is paired
with exactly one counter bump. -/
theorem c9_counts_match_findings (lines : List Str) :
    sumCounts (analyzeLines lines).patterns =
      (analyzeLines lines).errors.length + (analyzeLines lines).warnings.length +
      (analyzeLines lines).security_issues.length +
      (analyzeLines lines).performance_issues.length :=
  runFrom_sum_invariant lines lines 0 initState rfl

end AnalyzeLogs

namespace AnalyzeLogs

theorem afterFirst_isSome_of_containsSub (p s : Str) (h : containsSub s p = true) :
    (afterFirst p s).isSome := by
  induction s with
  | nil =>
    simp only [containsSub] at h
    simp [afterFirst, h]
  | cons c t ih =>
    by_cases hp : p.isPrefixOf (c :: t)
    · simp [afterFirst, hp]
    · simp only [containsSub, hp, Bool.false_or] at h
      simp only [afterFirst, hp, if_false]
      exact ih h

/-- Searching for a single-word chain is exactly substring containment. -/
theorem chainSearch_single (p s : Str) (h : containsSub s p = true) :
    chainSearch [p] s = true := by
  have hs := afterFirst_isSome_of_containsSub p s h
  obtain ⟨r, hr⟩ := Option.isSome_iff_exists.mp hs
  simp [chainSearch, hr]

theorem filter_over_map {α β : Type} (f : α → β) (p : β → Bool) (l : List α) :
    (l.map f).filter p = (l.filter fun a => p (f a)).map f := by
  induction l with
  | nil => rfl
  | cons a l ih =>
    by_cases h : p (f a) <;> simp [List.filter_cons, h, ih]

theorem filter_filter_and {α : Type} (p q : α → Bool) (l : List α) :
    (l.filter p).filter q = l.filter fun a => p a && q a := by
  induction l with
  | nil => rfl
  | cons a l ih =>
    by_cases hp : p a
    · by_cases hq : q a <;> simp [List.filter_cons, hp, hq, ih]
    · simp [List.filter_cons, hp, ih]

/-- The error category label for null pointer findings. -/
def npeName : Str := w "Null Pointer Exception"

/-- Claim C6: a processed line containing `NullPointerException` in any
letter case gets exactly one error finding of type `Null Pointer
Exception` carrying the stripped line, and that category's count grows
by exactly 1. -/
theorem c6_null_pointer_line (st : LogAnalyzer) (line : Str) (i : Nat)
    (all : List Str) (hnb : pyStrip line ≠ [])
    (h : containsSub (lc line) (lc (w "NullPointerException")) = true) :
    (processLine st line i all).errors.filter (fun f => f.type = npeName) =
      st.errors.filter (fun f => f.type = npeName) ++ [⟨npeName, pyStrip line⟩] ∧
    lookupCount (processLine st line i all).patterns npeName =
      lookupCount st.patterns npeName + 1 := by
  have hm : reSearchIC (rx [["NullPointerException"], ["null pointer"]]) line = true := by
    simp only [reSearchIC, rx, List.map, List.any_cons, Bool.or_eq_true]
    exact Or.inl (chainSearch_single _ _ h)
  rw [processLine, processLineWith_shape _ _ _ _ _ hnb]
  constructor
  · simp only [canonicalPasses, joinMap, List.map, List.flatten, passErr,
      List.append_nil, List.filter_append]
    rw [errFindings, asyncFindings, filter_over_map, filter_over_map,
      filter_filter_and, filter_filter_and]
    simp +decide [error_patterns, async_patterns, List.filter_cons, hm, npeName]
  · rw [lookupCount_bumpList]
    have hocc : occ npeName (joinMap passKeys canonicalPasses line) = 1 := by
      simp only [canonicalPasses, joinMap, List.map, List.flatten, passKeys,
        List.append_nil, occ_append]
      rw [errKeys, nullKeys, asyncKeys, secKeys, perfKeys]
      simp only [occ]
      rw [filter_over_map, filter_over_map, filter_over_map, filter_over_map,
        filter_over_map, filter_filter_and, filter_filter_and,
        filter_filter_and, filter_filter_and, filter_filter_and]
      simp +decide [error_patterns, null_patterns, async_patterns,
        security_patterns, perf_patterns, List.filter_cons, hm, npeName]
    omega

end AnalyzeLogs

namespace AnalyzeLogs

/-- Concrete line for the C6 witness. -/
def exC6 : Str := w "Some NullPointerException occurred"

/-- Witness for `c6_null_pointer_line` at a concrete line. -/
theorem c6_null_pointer_line_witness :
    pyStrip exC6 ≠ [] ∧
    containsSub (lc exC6) (lc (w "NullPointerException")) = true ∧
    ((processLine initState exC6 0 [exC6]).errors.filter
        (fun f => f.type = npeName) =
      initState.errors.filter (fun f => f.type = npeName) ++
        [⟨npeName, pyStrip exC6⟩] ∧
     lookupCount (processLine initState exC6 0 [exC6]).patterns npeName =
      lookupCount initState.patterns npeName + 1) :=
  ⟨by decide, by decide,
    c6_null_pointer_line initState exC6 0 [exC6] (by decide) (by decide)⟩

/-- The performance category label matched by the `(garbage.*collect|GC)`
pattern. -/
def gcName : Str := w "Garbage Collection"

/-- Claim C10: any non-blank processed line containing the substring
`gc` in any letter case (even inside a word like `logcat`) receives a
`Garbage Collection` performance finding, and the key
`Performance: Garbage Collection` is bumped by exactly 1, because the
`GC` alternative of `(garbage.*collect|GC)` is matched case-insensitively
and unanchored. -/
theorem c10_gc_substring (st : LogAnalyzer) (line : Str) (i : Nat)
    (all : List Str) (hnb : pyStrip line ≠ [])
    (h : containsSub (lc line) (w "gc") = true) :
    (processLine st line i all).performance_issues.filter
        (fun f => f.type = gcName) =
      st.performance_issues.filter (fun f => f.type = gcName) ++
        [⟨gcName, pyStrip line⟩] ∧
    lookupCount (processLine st line i all).patterns (perfPre ++ gcName) =
      lookupCount st.patterns (perfPre ++ gcName) + 1 := by
  have hm : reSearchIC (rx [["garbage", "collect"], ["GC"]]) line = true := by
    simp only [reSearchIC, rx, List.map, List.any_cons, Bool.or_eq_true]
    exact Or.inr (Or.inl (chainSearch_single _ _ h))
  rw [processLine, processLineWith_shape _ _ _ _ _ hnb]
  constructor
  · simp only [canonicalPasses, joinMap, List.map, List.flatten, passPerf,
      List.append_nil, List.filter_append]
    rw [perfFindings, filter_over_map, filter_filter_and]
    simp +decide [perf_patterns, List.filter_cons, hm, gcName]
  · rw [lookupCount_bumpList]
    have hocc : occ (perfPre ++ gcName) (joinMap passKeys canonicalPasses line) = 1 := by
      simp only [canonicalPasses, joinMap, List.map, List.flatten, passKeys,
        List.append_nil, occ_append]
      rw [errKeys, nullKeys, asyncKeys, secKeys, perfKeys]
      simp only [occ]
      rw [filter_over_map, filter_over_map, filter_over_map, filter_over_map,
        filter_over_map, filter_filter_and, filter_filter_and,
        filter_filter_and, filter_filter_and, filter_filter_and]
      simp +decide [error_patterns, null_patterns, async_patterns,
        security_patterns, perf_patterns, List.filter_cons, hm, gcName,
        perfPre, nsiKey, aeKey, secPre]
    omega

/-- Concrete line for the C10 witness: `logcat` contains `gc`. -/
def exC10 : Str := w "logcat output here"

/-- Witness for `c10_gc_substring` at a concrete line. -/
theorem c10_gc_substring_witness :
    pyStrip exC10 ≠ [] ∧
    containsSub (lc exC10) (w "gc") = true ∧
    ((processLine initState exC10 0 [exC10]).performance_issues.filter
        (fun f => f.type = gcName) =
      initState.performance_issues.filter (fun f => f.type = gcName) ++
        [⟨gcName, pyStrip exC10⟩] ∧
     lookupCount (processLine initState exC10 0 [exC10]).patterns
        (perfPre ++ gcName) =
      lookupCount initState.patterns (perfPre ++ gcName) + 1) :=
  ⟨by decide, by decide,
    c10_gc_substring initState exC10 0 [exC10] (by decide) (by decide)⟩

end AnalyzeLogs

namespace AnalyzeLogs

theorem errKeys_eq_types (line : Str) :
    errKeys line = (errFindings line).map (fun f => f.type) := by
  simp [errKeys, errFindings, List.map_map]

theorem perfKeys_eq_types (line : Str) :
    perfKeys line = (perfFindings line).map (fun f => perfPre ++ f.type) := by
  simp [perfKeys, perfFindings, List.map_map]

theorem errFindings_type_mem (line : Str) (f : Finding)
    (h : f ∈ errFindings line) : f.type ∈ error_patterns.map Prod.snd := by
  simp only [errFindings, List.mem_map, List.mem_filter] at h
  obtain ⟨e, ⟨he, _⟩, rfl⟩ := h
  exact List.mem_map.mpr ⟨e, he, rfl⟩

theorem perfFindings_type_mem (line : Str) (f : Finding)
    (h : f ∈ perfFindings line) : f.type ∈ perf_patterns.map Prod.snd := by
  simp only [perfFindings, List.mem_map, List.mem_filter] at h
  obtain ⟨e, ⟨he, _⟩, rfl⟩ := h
  exact List.mem_map.mpr ⟨e, he, rfl⟩

/-- No error-pass category label collides with a key bumped by any of
the other passes (checked over the concrete catalogs). -/
theorem errNames_disjoint_other_keys :
    ∀ n ∈ error_patterns.map Prod.snd,
      n ≠ nsiKey ∧ n ≠ aeKey ∧
      (∀ e ∈ security_patterns, n ≠ secPre ++ e.2) ∧
      (∀ e ∈ perf_patterns, n ≠ perfPre ++ e.2) := by decide

/-- No performance counter key collides with a key bumped by the
null-safety, async or security passes. -/
theorem perfNames_disjoint_other_keys :
    ∀ e ∈ perf_patterns,
      perfPre ++ e.2 ≠ nsiKey ∧ perfPre ++ e.2 ≠ aeKey ∧
      (∀ s ∈ security_patterns, perfPre ++ e.2 ≠ secPre ++ s.2) := by decide

theorem occ_nullKeys_zero (line : Str) (k : Str) (hk : k ≠ nsiKey) :
    occ k (nullKeys line) = 0 := by
  refine occ_eq_zero _ _ ?_
  intro x hx
  simp only [nullKeys, List.mem_map] at hx
  obtain ⟨p, _, rfl⟩ := hx
  exact fun hh => hk hh.symm

theorem occ_asyncKeys_zero (line : Str) (k : Str) (hk : k ≠ aeKey) :
    occ k (asyncKeys line) = 0 := by
  refine occ_eq_zero _ _ ?_
  intro x hx
  simp only [asyncKeys, List.mem_map] at hx
  obtain ⟨p, _, rfl⟩ := hx
  exact fun hh => hk hh.symm

theorem occ_secKeys_zero (line : Str) (k : Str)
    (hk : ∀ e ∈ security_patterns, k ≠ secPre ++ e.2) :
    occ k (secKeys line) = 0 := by
  refine occ_eq_zero _ _ ?_
  intro x hx
  simp only [secKeys, List.mem_map, List.mem_filter] at hx
  obtain ⟨e, ⟨he, _⟩, rfl⟩ := hx
  exact fun hh => (hk e he) hh.symm

/-- Claim C7: when a line matches exactly one error pattern (label `en`)
and exactly one performance pattern (label `pn`), processing it appends
one `errors` finding for the error match and one `performance_issues`
finding for the performance match, and bumps both counters by exactly 1. -/
theorem c7_cross_pass_findings (st : LogAnalyzer) (line : Str) (i : Nat)
    (all : List Str) (en pn : Str) (hnb : pyStrip line ≠ [])
    (h1 : errFindings line = [⟨en, pyStrip line⟩])
    (h2 : perfFindings line = [⟨pn, pyStrip line⟩]) :
    (processLine st line i all).errors =
      st.errors ++ ⟨en, pyStrip line⟩ :: asyncFindings line ∧
    (processLine st line i all).performance_issues =
      st.performance_issues ++ [⟨pn, pyStrip line⟩] ∧
    lookupCount (processLine st line i all).patterns en =
      lookupCount st.patterns en + 1 ∧
    lookupCount (processLine st line i all).patterns (perfPre ++ pn) =
      lookupCount st.patterns (perfPre ++ pn) + 1 := by
  have hek : errKeys line = [en] := by
    simp [errKeys_eq_types, h1]
  have hpk : perfKeys line = [perfPre ++ pn] := by
    simp [perfKeys_eq_types, h2]
  have hen : en ∈ error_patterns.map Prod.snd := by
    have hmem : (⟨en, pyStrip line⟩ : Finding) ∈ errFindings line := by
      rw [h1]; exact List.mem_singleton.mpr rfl
    exact errFindings_type_mem line _ hmem
  have hpn : pn ∈ perf_patterns.map Prod.snd := by
    have hmem : (⟨pn, pyStrip line⟩ : Finding) ∈ perfFindings line := by
      rw [h2]; exact List.mem_singleton.mpr rfl
    exact perfFindings_type_mem line _ hmem
  obtain ⟨den, dea, des, dep⟩ := errNames_disjoint_other_keys en hen
  obtain ⟨ep, hep, rfl⟩ := List.mem_map.mp hpn
  obtain ⟨dpn, dpa, dps⟩ := perfNames_disjoint_other_keys ep hep
  have henp : en ≠ perfPre ++ ep.2 := dep ep hep
  rw [processLine, processLineWith_shape _ _ _ _ _ hnb]
  refine ⟨?_, ?_, ?_, ?_⟩
  · simp [canonicalPasses, joinMap, passErr, h1]
  · simp [canonicalPasses, joinMap, passPerf, h2]
  · rw [lookupCount_bumpList]
    have hocc : occ en (joinMap passKeys canonicalPasses line) = 1 := by
      simp only [canonicalPasses, joinMap, List.map, List.flatten, passKeys,
        List.append_nil, occ_append]
      rw [hek, hpk, occ_nullKeys_zero line en den, occ_asyncKeys_zero line en dea,
        occ_secKeys_zero line en des]
      have hs2 : ¬ perfPre ++ ep.2 = en := fun hh => henp hh.symm
      simp [occ, List.filter_cons, henp, hs2]
    omega
  · rw [lookupCount_bumpList]
    have hocc : occ (perfPre ++ ep.2) (joinMap passKeys canonicalPasses line) = 1 := by
      simp only [canonicalPasses, joinMap, List.map, List.flatten, passKeys,
        List.append_nil, occ_append]
      rw [hek, hpk, occ_nullKeys_zero line _ dpn, occ_asyncKeys_zero line _ dpa,
        occ_secKeys_zero line _ dps]
      have hs1 : ¬ en = perfPre ++ ep.2 := henp
      have hs2 : ¬ perfPre ++ ep.2 = en := fun hh => henp hh.symm
      simp [occ, List.filter_cons, hs1, hs2]
    omega

/-- Concrete line for the C7 witness: `OutOfMemoryError` matches exactly
the error pattern `Out of Memory` and the performance pattern
`(OutOfMemory|heap.*size)` (label `Memory Issues`). -/
def exC7 : Str := w "OutOfMemoryError"

/-- Witness for `c7_cross_pass_findings` at a concrete line. -/
theorem c7_cross_pass_findings_witness :
    pyStrip exC7 ≠ [] ∧
    errFindings exC7 = [⟨w "Out of Memory", pyStrip exC7⟩] ∧
    perfFindings exC7 = [⟨w "Memory Issues", pyStrip exC7⟩] ∧
    ((processLine initState exC7 0 [exC7]).errors =
       initState.errors ++ ⟨w "Out of Memory", pyStrip exC7⟩ :: asyncFindings exC7 ∧
     (processLine initState exC7 0 [exC7]).performance_issues =
       initState.performance_issues ++ [⟨w "Memory Issues", pyStrip exC7⟩] ∧
     lookupCount (processLine initState exC7 0 [exC7]).patterns (w "Out of Memory") =
       lookupCount initState.patterns (w "Out of Memory") + 1 ∧
     lookupCount (processLine initState exC7 0 [exC7]).patterns
        (perfPre ++ w "Memory Issues") =
       lookupCount initState.patterns (perfPre ++ w "Memory Issues") + 1) :=
  ⟨by decide, by decide, by decide,
    c7_cross_pass_findings initState exC7 0 [exC7] (w "Out of Memory")
      (w "Memory Issues") (by decide) (by decide) (by decide)⟩

end AnalyzeLogs

namespace AnalyzeLogs

theorem takeWhile_len_le {α : Type} (p : α → Bool) (l : List α) :
    (l.takeWhile p).length ≤ l.length := by
  induction l with
  | nil => simp
  | cons a l ih =>
    by_cases h : p a
    · simp [List.takeWhile_cons, h]
      omega
    · simp [List.takeWhile_cons, h]

theorem takeWhile_eq_take {α : Type} (p : α → Bool) (l : List α) :
    l.takeWhile p = l.take (l.takeWhile p).length := by
  induction l with
  | nil => rfl
  | cons a l ih =>
    by_cases h : p a
    · simpa [List.takeWhile_cons, h] using ih
    · simp [List.takeWhile_cons, h]

/-- The first element after the greedily consumed prefix fails the
predicate (greediness of `takeWhile`). -/
theorem takeWhile_next_fails {α : Type} (p : α → Bool) (l : List α) :
    ∀ x ∈ (l.drop (l.takeWhile p).length).head?, p x = false := by
  induction l with
  | nil => simp
  | cons a l ih =>
    by_cases h : p a
    · simpa [List.takeWhile_cons, h] using ih
    · intro x hx
      simp [List.takeWhile_cons, h] at hx
      subst hx
      simpa using h

theorem containsSub_head_mem (s : Str) (c : Char) (p : Str)
    (h : containsSub s (c :: p) = true) : c ∈ s := by
  induction s with
  | nil => simp [containsSub, List.isPrefixOf] at h
  | cons d t ih =>
    simp only [containsSub, Bool.or_eq_true] at h
    rcases h with h | h
    · simp only [List.isPrefixOf, Bool.and_eq_true, beq_iff_eq] at h
      simp [h.1]
    · simp [ih h]

theorem pyStrip_nil_all_ws (l : Str) (h : pyStrip l = []) :
    ∀ c ∈ l, c.isWhitespace := by
  have h1 : (l.dropWhile Char.isWhitespace).reverse.dropWhile Char.isWhitespace = [] := by
    have := congrArg List.reverse h
    simpa [pyStrip] using this
  have h2 : ∀ c ∈ (l.dropWhile Char.isWhitespace).reverse, c.isWhitespace := by
    intro c hc
    exact List.dropWhile_eq_nil_iff.mp h1 c hc
  have h3 : ∀ c ∈ l.dropWhile Char.isWhitespace, c.isWhitespace := by
    intro c hc
    exact h2 c (List.mem_reverse.mpr hc)
  intro c hc
  rw [← List.takeWhile_append_dropWhile Char.isWhitespace l] at hc
  rcases List.mem_append.mp hc with hc | hc
  · exact List.mem_takeWhile_imp hc
  · exact h3 c hc

theorem isTraceStart_false_of_blank (l : Str) (h : pyStrip l = []) :
    isTraceStart l = false := by
  have hws := pyStrip_nil_all_ws l h
  by_contra hne
  rw [Bool.not_eq_false, isTraceStart, Bool.or_eq_true] at hne
  rcases hne with h1 | h1
  · have hm : 'a' ∈ l := containsSub_head_mem l 'a' (w "t ") h1
    have := hws 'a' hm
    simp at this
  · have h1' : containsSub l (w "File") = true ∧ containsSub l (w "Line") = true := by
      simpa using h1
    have hm : 'F' ∈ l := containsSub_head_mem l 'F' (w "ile") h1'.1
    have := hws 'F' hm
    simp at this

end AnalyzeLogs

namespace AnalyzeLogs

/-- The stack-trace block the analyzer records starting at line index
`i`, as a half-open index interval `(start, stop)`: present exactly when
line `i` is a trace start and the greedy forward extension consumes at
least one following line. -/
def blockExtentAt (all : List Str) (i : Nat) : Option (Nat × Nat) :=
  match all.drop i with
  | [] => none
  | l :: rest =>
    if isTraceStart l then
      if 0 < (rest.takeWhile isTraceCont).length then
        some (i, i + 1 + (rest.takeWhile isTraceCont).length)
      else none
    else none

/-- Index intervals of all blocks recorded during one run, in the order
their start lines are processed. -/
def recordedExtents (all : List Str) : List (Nat × Nat) :=
  (List.range all.length).filterMap (blockExtentAt all)

/-- The joined text of the block with extent `e`. -/
def renderBlock (all : List Str) (e : Nat × Nat) : Str :=
  joinNL ((all.drop e.1).take (e.2 - e.1))

theorem traceDelta_blockExtent (all : List Str) (i : Nat) (l : Str)
    (hd : all.drop i = l :: all.drop (i + 1)) :
    traceDelta l i all = ((blockExtentAt all i).map (renderBlock all)).toList := by
  rw [blockExtentAt, hd]
  by_cases hs : isTraceStart l
  · by_cases hk : 0 < ((all.drop (i + 1)).takeWhile isTraceCont).length
    · simp only [traceDelta, hs, if_true, hk, Option.map_some, Option.toList_some]
      congr 1
      rw [renderBlock]
      have h1 : i + 1 + ((all.drop (i + 1)).takeWhile isTraceCont).length - i =
          1 + ((all.drop (i + 1)).takeWhile isTraceCont).length := by omega
      rw [h1, hd]
      simp only [List.take_succ_cons, Nat.add_comm 1, List.take]
      rw [← takeWhile_eq_take]
    · simp [traceDelta, hs, hk]
  · simp [traceDelta, hs]

end AnalyzeLogs

namespace AnalyzeLogs

theorem runFrom_stack_traces (all : List Str) :
    ∀ (rest : List Str) (i : Nat) (st : LogAnalyzer), rest = all.drop i →
      (runFrom canonicalPasses all rest i st).stack_traces =
        st.stack_traces ++
          ((List.range' i rest.length).filterMap (blockExtentAt all)).map
            (renderBlock all) := by
  intro rest
  induction rest with
  | nil =>
    intro i st _
    simp [runFrom]
  | cons l rest ih =>
    intro i st h
    have hrest : rest = all.drop (i + 1) := by
      rw [← List.tail_drop, ← h]
      rfl
    have hd : all.drop i = l :: all.drop (i + 1) := by
      rw [← hrest, ← h]
    have hstep : runFrom canonicalPasses all (l :: rest) i st =
        runFrom canonicalPasses all rest (i + 1)
          (processLineWith canonicalPasses st l i all) := rfl
    rw [hstep, ih (i + 1) _ hrest]
    have hst : (processLineWith canonicalPasses st l i all).stack_traces =
        st.stack_traces ++ traceDelta l i all := by
      by_cases hb : pyStrip l = []
      · have hts := isTraceStart_false_of_blank l hb
        simp [processLineWith, hb, traceDelta, hts]
      · rw [processLineWith_shape _ _ _ _ _ hb]
    rw [hst, traceDelta_blockExtent all i l hd, List.length_cons,
      List.range'_succ i rest.length 1, List.filterMap_cons]
    cases hbe : blockExtentAt all i with
    | none => simp
    | some e => simp [List.append_assoc]

/-- The recorded joined stack traces are exactly the blocks described by
`recordedExtents`, rendered from their line intervals. -/
theorem analyzeLines_stack_traces (lines : List Str) :
    (analyzeLines lines).stack_traces =
      (recordedExtents lines).map (renderBlock lines) := by
  have h := runFrom_stack_traces lines lines 0 initState (by simp)
  rw [analyzeLines, analyzeWith] at *
  rw [h]
  simp [recordedExtents, initState, List.range_eq_range']

/-- A recorded block cannot be extended forward: the line after its end
(when one exists) fails every continuation condition. -/
theorem blockExtent_maximal (all : List Str) (i a b : Nat)
    (h : blockExtentAt all i = some (a, b)) :
    b ≤ all.length ∧ ∀ nl ∈ (all.drop b).head?, isTraceCont nl = false := by
  cases hd : all.drop i with
  | nil => simp [blockExtentAt, hd] at h
  | cons l rest =>
    simp only [blockExtentAt, hd] at h
    by_cases hs : isTraceStart l
    · by_cases hk : 0 < (rest.takeWhile isTraceCont).length
      · simp only [hs, if_true, hk, Option.some.injEq, Prod.mk.injEq] at h
        obtain ⟨rfl, rfl⟩ := h
        have hlen : (all.drop i).length = all.length - i := List.length_drop i all
        rw [hd] at hlen
        have hrl : rest.length + 1 = all.length - i := by simpa using hlen
        have htw : (rest.takeWhile isTraceCont).length ≤ rest.length :=
          takeWhile_len_le _ _
        have hi : i < all.length := by omega
        constructor
        · omega
        · intro nl hnl
          have hrest : all.drop (i + 1) = rest := by
            rw [← List.tail_drop, hd]
            rfl
          have hdd : all.drop (i + 1 + (rest.takeWhile isTraceCont).length) =
              rest.drop (rest.takeWhile isTraceCont).length := by
            rw [← hrest, List.drop_drop]
          rw [hdd] at hnl
          exact takeWhile_next_fails isTraceCont rest nl hnl
      · simp [hs, hk] at h
    · simp [hs] at h

end AnalyzeLogs

namespace AnalyzeLogs

/-- Python `content.split('\n')`: empty segments are preserved and the
empty string yields one empty segment. -/
def splitNL : Str → List Str
  | [] => [[]]
  | c :: t =>
    if c = '\n' then [] :: splitNL t
    else
      match splitNL t with
      | [] => [[c]]
      | h :: r => (c :: h) :: r

/-- Number of lines of a joined stack-trace block. -/
def numLines (b : Str) : Nat := (splitNL b).length

/-- The spec's stack-trace example input. -/
def exC3 : List Str :=
  [w "Exception foo", w "  at bar()", w "  at baz()", w "next unrelated"]

/-- Claim C3 counterexample: on the spec's four-line example the run
records exactly one block, but it has 2 lines, not 3 — `Exception foo`
contains neither `at ` nor `File`, so the block starts only at
`  at bar()`. -/
theorem c3_counterexample :
    (analyzeLines exC3).stack_traces.map numLines = [2] ∧
    (analyzeLines exC3).stack_traces.map numLines ≠ [3] := by decide

/-- Claim C3 (amended): the example records exactly one StackTraceBlock
of 2 lines; and a lone trace-start line whose following line (if any)
satisfies none of the continuation conditions records no block. -/
theorem c3_stack_trace_example (st : LogAnalyzer) (line : Str) (i : Nat)
    (all : List Str) ( _hstart : containsSub line (w "at ") = true)
    (hnext : ∀ nl ∈ (all.drop (i + 1)).head?, isTraceCont nl = false) :
    (analyzeLines exC3).stack_traces.map numLines = [2] ∧
    (processLine st line i all).stack_traces = st.stack_traces := by
  refine ⟨by decide, ?_⟩
  by_cases hb : pyStrip line = []
  · simp [processLine, processLineWith, hb]
  · rw [processLine, processLineWith_shape _ _ _ _ _ hb]
    have hdelta : traceDelta line i all = [] := by
      rw [traceDelta]
      by_cases hs : isTraceStart line
      · simp only [hs, if_true]
        have htw : (all.drop (i + 1)).takeWhile isTraceCont = [] := by
          cases hcd : all.drop (i + 1) with
          | nil => rfl
          | cons nl rest2 =>
            have hfail := hnext nl (by simp [hcd])
            simp [List.takeWhile_cons, hfail]
        simp [htw]
      · simp [hs]
    simp [hdelta]

/-- Input with a lone trace-start line for the C3 witness. -/
def exLone : List Str := [w "at x", w "zzz"]

/-- Witness for `c3_stack_trace_example` at concrete inputs. -/
theorem c3_stack_trace_example_witness :
    containsSub (w "at x") (w "at ") = true ∧
    (∀ nl ∈ (exLone.drop (0 + 1)).head?, isTraceCont nl = false) ∧
    ((analyzeLines exC3).stack_traces.map numLines = [2] ∧
     (processLine initState (w "at x") 0 exLone).stack_traces =
       initState.stack_traces) := by
  refine ⟨by decide, ?_, ?_⟩
  · intro nl hnl
    simp only [exLone, List.drop, List.head?, Option.mem_def,
      Option.some.injEq] at hnl
    subst hnl
    decide
  · refine c3_stack_trace_example initState (w "at x") 0 exLone (by decide) ?_
    intro nl hnl
    simp only [exLone, List.drop, List.head?, Option.mem_def,
      Option.some.injEq] at hnl
    subst hnl
    decide

/-- Input whose continuation lines themselves contain `at `, so several
overlapping blocks get recorded. -/
def exC4 : List Str := [w "at a()", w "  at b()", w "  at c()", w "junk"]

/-- `j` is a line index lying inside extent `e`. -/
def inExtent (j : Nat) (e : Nat × Nat) : Bool :=
  decide (e.1 ≤ j) && decide (j < e.2)

/-- Claim C4 counterexample: two distinct recorded blocks share input
lines — lines 1 and 2 belong to the block starting at line 0 and to the
block starting at line 1. -/
theorem c4_counterexample :
    (0, 3) ∈ recordedExtents exC4 ∧ (1, 3) ∈ recordedExtents exC4 ∧
    ((0, 3) : Nat × Nat) ≠ (1, 3) ∧
    inExtent 1 (0, 3) = true ∧ inExtent 1 (1, 3) = true ∧
    (analyzeLines exC4).stack_traces =
      [renderBlock exC4 (0, 3), renderBlock exC4 (1, 3)] := by decide

/-- Claim C4 (amended): the recorded blocks are exactly the rendered
`recordedExtents`, and every recorded block is maximal forward — the
line after its end, when it exists, fails all continuation conditions.
(Distinct recorded blocks can overlap, see `c4_counterexample`.) -/
theorem c4_blocks_maximal (lines : List Str) :
    (analyzeLines lines).stack_traces =
      (recordedExtents lines).map (renderBlock lines) ∧
    ∀ e ∈ recordedExtents lines, e.2 ≤ lines.length ∧
      ∀ nl ∈ (lines.drop e.2).head?, isTraceCont nl = false := by
  refine ⟨analyzeLines_stack_traces lines, ?_⟩
  intro e he
  simp only [recordedExtents, List.mem_filterMap] at he
  obtain ⟨i, _, hbe⟩ := he
  obtain ⟨a, b⟩ := e
  exact blockExtent_maximal lines i a b hbe

/-- Witness for `c4_blocks_maximal` at a concrete extent. -/
theorem c4_blocks_maximal_witness :
    ((0, 3) ∈ recordedExtents exC4) ∧
    (((0, 3) : Nat × Nat).2 ≤ exC4.length ∧
     ∀ nl ∈ (exC4.drop ((0, 3) : Nat × Nat).2).head?, isTraceCont nl = false) :=
  ⟨by decide, (c4_blocks_maximal exC4).2 (0, 3) (by decide)⟩

end AnalyzeLogs

namespace AnalyzeLogs

/-- A Python value stored in one of the analyzer's attributes. -/
inductive PyVal where
  | findings (l : List Finding)
  | traces (l : List Str)
  | counts (m : List (Str × Nat))
deriving DecidableEq, Repr

/-- Python attribute lookup on a `LogAnalyzer` object: exactly the six
attributes assigned by `__init__` (lines 15-21) exist — no method of the
class ever assigns any other attribute — and looking up any other name
raises `AttributeError`, modelled as `none`. -/
def getattr (st : LogAnalyzer) (name : Str) : Option PyVal :=
  if name = w "errors" then some (.findings st.errors)
  else if name = w "warnings" then some (.findings st.warnings)
  else if name = w "stack_traces" then some (.traces st.stack_traces)
  else if name = w "patterns" then some (.counts st.patterns)
  else if name = w "security_issues" then some (.findings st.security_issues)
  else if name = w "performance_issues" then some (.findings st.performance_issues)
  else none

/-- Python truthiness of an attribute value (`if self.x:`). -/
def pyTruthy : PyVal → Bool
  | .findings l => !l.isEmpty
  | .traces l => !l.isEmpty
  | .counts m => !m.isEmpty

/-- Stable insertion into a count-descending list: `x` moves past `y`
only when strictly larger, so entries with equal counts keep their
original order, like Python's stable `sorted(..., reverse=True)`. -/
def insertDesc (x : Str × Nat) : List (Str × Nat) → List (Str × Nat)
  | [] => [x]
  | y :: r => if y.2 < x.2 then x :: y :: r else y :: insertDesc x r

/-- `sorted(self.patterns.items(), key=lambda x: x[1], reverse=True)`. -/
def sortDesc : List (Str × Nat) → List (Str × Nat)
  | [] => []
  | x :: r => insertDesc x (sortDesc r)

/-- `enumerate(xs, i)`. -/
def enumFrom1 {α : Type} (i : Nat) : List α → List (Nat × α)
  | [] => []
  | a :: l => (i, a) :: enumFrom1 (i + 1) l

/-- One print event of `print_report`; the literal text is abstracted
into the constructor carrying the data that is interpolated into it. -/
inductive Out where
  | header
  | summary (total errs warns secs perfs : Nat)
  | patLine (key : Str) (count : Nat)
  | errItem (idx : Nat) (t : Str) (shown : Str)
  | errMore (n : Nat)
  | secItem (idx : Nat) (t : Str) (shown : Str)
  | secMore (n : Nat)
  | perfItem (idx : Nat) (t : Str) (shown : Str)
  | perfMore (n : Nat)
  | traceItem (idx : Nat) (shown : Str)
  | traceMore (n : Nat)
  | recommend (idx : Nat)
deriving DecidableEq, Repr

/-- `print_report` (lines 169-247): either the sequence of print events,
or the name of the attribute whose lookup raised.  The summary and the
five listing sections read only attributes `__init__` defined; the
recommendations section then evaluates `self.async_errors` (line 240)
before it can print recommendations 2-5. -/
def printReport (st : LogAnalyzer) : Except Str (List Out) :=
  match getattr st (w "errors"), getattr st (w "warnings"),
        getattr st (w "security_issues"), getattr st (w "performance_issues"),
        getattr st (w "patterns"), getattr st (w "stack_traces") with
  | some (.findings errs), some (.findings warns), some (.findings secs),
      some (.findings perfs), some (.counts pats), some (.traces trs) =>
    let summary := [Out.header,
      Out.summary (errs.length + warns.length) errs.length warns.length
        secs.length perfs.length]
    let patPart := if pats.isEmpty then [] else
      (sortDesc pats).map fun e => Out.patLine e.1 e.2
    let errPart := if errs.isEmpty then [] else
      ((enumFrom1 1 (errs.take 10)).map fun e =>
        Out.errItem e.1 e.2.type (e.2.line.take 80)) ++
      (if 10 < errs.length then [Out.errMore (errs.length - 10)] else [])
    let secPart := if secs.isEmpty then [] else
      ((enumFrom1 1 (secs.take 10)).map fun e =>
        Out.secItem e.1 e.2.type (e.2.line.take 80)) ++
      (if 10 < secs.length then [Out.secMore (secs.length - 10)] else [])
    let perfPart := if perfs.isEmpty then [] else
      ((enumFrom1 1 (perfs.take 5)).map fun e =>
        Out.perfItem e.1 e.2.type (e.2.line.take 80)) ++
      (if 5 < perfs.length then [Out.perfMore (perfs.length - 5)] else [])
    let tracePart := if trs.isEmpty then [] else
      ((enumFrom1 1 (trs.take 3)).map fun e =>
        Out.traceItem e.1 (e.2.take 500)) ++
      (if 3 < trs.length then [Out.traceMore (trs.length - 3)] else [])
    let rec1 := if errs.isEmpty then [] else [Out.recommend 1]
    match getattr st (w "async_errors") with
    | none => Except.error (w "async_errors")
    | some v =>
      let rec2 := if pyTruthy v then [Out.recommend 2] else []
      let rec3 := if secs.isEmpty then [] else [Out.recommend 3]
      let rec4 := if perfs.isEmpty then [] else [Out.recommend 4]
      Except.ok (summary ++ patPart ++ errPart ++ secPart ++ perfPart ++
        tracePart ++ rec1 ++ rec2 ++ rec3 ++ rec4 ++ [Out.recommend 5])
  | _, _, _, _, _, _ => Except.error (w "attribute")

/-- Claim C1: every invocation of `print_report` reaches the line-240
read of `self.async_errors`, an attribute `__init__` never defines, so
report printing always fails there, whatever the analyzer state. -/
theorem c1_print_report_always_fails (st : LogAnalyzer) :
    printReport st = Except.error (w "async_errors") ∧
    getattr st (w "async_errors") = none :=
  ⟨rfl, rfl⟩

/-- `main` in file mode (lines 249-266): `none` models a file that
cannot be opened (`analyze_file` prints and returns `False`, so `main`
calls `sys.exit(1)` before any analysis); otherwise the content is split
on newlines and analysed, then `print_report` runs — an uncaught
exception there terminates the interpreter with exit code 1 — and only
if it returns does `main` exit 1 when errors or security issues exist,
else 0. -/
def mainFile (contents : Option Str) : Nat :=
  match contents with
  | none => 1
  | some content =>
    let st := analyzeFrom initState (splitNL content)
    match printReport st with
    | Except.error _ => 1
    | Except.ok _ =>
      if !st.errors.isEmpty || !st.security_issues.isEmpty then 1 else 0

/-- A log file content with no matches of any kind. -/
def cleanContent : Str := w "hello world"

/-- Claim C5 evidence: the unopenable-file path exits 1 as claimed, but
the clean run does NOT exit 0: even with no error and no security
finding the process exits 1, because `print_report` raises on the
undefined `async_errors` attribute before the conditional exit at lines
264-266 can run. -/
theorem c5_exit_code_evidence :
    mainFile none = 1 ∧
    (analyzeFrom initState (splitNL cleanContent)).errors = [] ∧
    (analyzeFrom initState (splitNL cleanContent)).security_issues = [] ∧
    mainFile (some cleanContent) = 1 := by decide

end AnalyzeLogs
